import Mathlib

/-!
Shallow embedding of the calculator engine in `src/student_loan_calc.py`
(`get_growth_rate` and `run_simulation`, together with the module-level
configuration constants they read). Money and rate quantities are modelled
as exact rationals; the Python loop with its early `break` is modelled as a
fuel-indexed recursion, where the fuel is the fixed month budget
`term_years * 12`.
-/

namespace LoanCalc

/-- Module-level constant `repayment_threshold = 27295`. -/
def repayment_threshold : ℚ := 27295

/-- Module-level constant `lower_interest_threshold = 28470`. -/
def lower_interest_threshold : ℚ := 28470

/-- Module-level constant `upper_interest_threshold = 51245`. -/
def upper_interest_threshold : ℚ := 51245

/-- Module-level constant `term_years = 30`. -/
def term_years : ℕ := 30

/-- Python substring containment `needle in hay` on lists of characters. -/
def containsSub (needle : List Char) : List Char → Bool
  | [] => needle.isEmpty
  | c :: t => needle.isPrefixOf (c :: t) || containsSub needle t

/-- `get_growth_rate(year, type, custom)` from the source: dispatches on the
career-type label by equality with "Custom Flat Rate" and then by substring
containment, with a default of 0.025. -/
def get_growth_rate (year : ℕ) (ty : String) (custom : ℚ) : ℚ :=
  if ty = "Custom Flat Rate" then custom
  else if containsSub "Steady".toList ty.toList then 25/1000
  else if containsSub "Fast Track".toList ty.toList then
    (if year < 5 then 10/100 else if year < 10 then 5/100 else 3/100)
  else if containsSub "Late".toList ty.toList then
    (if year < 4 then 1/100 else if year = 4 then 25/100 else 3/100)
  else 25/1000

/-- The widget-bound inputs read by `run_simulation` (globals in the source),
made explicit parameters. -/
structure Params where
  current_balance : ℚ
  annual_salary : ℚ
  career_type : String
  custom_rate : ℚ
  rpi : ℚ
  extra_payment : ℚ
deriving DecidableEq

/-- One row of the `data` list built by `run_simulation`
(fields Year, Balance, Paid, Salary, Interest). -/
structure Snapshot where
  year : ℕ
  balance : ℚ
  paid : ℚ
  salary : ℚ
  interest : ℚ
deriving DecidableEq

/-- The loop-carried state of `run_simulation`: the `data` list and the
variables `total_paid`, `balance`, `salary`. -/
structure SimState where
  data : List Snapshot
  total_paid : ℚ
  balance : ℚ
  salary : ℚ
deriving DecidableEq

/-- The salary after the annual-bump line for a given month
(`salary *= 1 + get_growth_rate(year, ...)` when `month > 0` and
`month % 12 == 0`). -/
def bumpedSalary (p : Params) (month : ℕ) (salary : ℚ) : ℚ :=
  if 0 < month ∧ month % 12 = 0 then
    salary * (1 + get_growth_rate (month / 12) p.career_type p.custom_rate)
  else salary

/-- The interest-rate computation of the source (step 1 of the loop body):
`rpi` below the lower threshold, `rpi + 0.03` at or above the upper
threshold, linear interpolation in between. -/
def interest_rate (rpi salary : ℚ) : ℚ :=
  if salary ≤ lower_interest_threshold then rpi
  else if upper_interest_threshold ≤ salary then rpi + 3/100
  else
    rpi + (salary - lower_interest_threshold)
      / (upper_interest_threshold - lower_interest_threshold) * (3/100)

/-- `mandatory_pay` for a given (already bumped) salary: 9% of the monthly
salary over the monthly threshold, 0 otherwise. -/
def mandatory_pay (salary : ℚ) : ℚ :=
  if repayment_threshold / 12 < salary / 12 then
    (salary / 12 - repayment_threshold / 12) * (9/100)
  else 0

/-- `total_monthly_pay = mandatory_pay + extra_payment` for the bumped salary
of a given month. -/
def monthPay (p : Params) (month : ℕ) (salary : ℚ) : ℚ :=
  mandatory_pay (bumpedSalary p month salary) + p.extra_payment

/-- One iteration of the `for month in range(term_years * 12)` body, up to but
not including the `if balance <= 0` break check: salary bump, interest-rate
and repayment computation, balance/total update, and the conditional
year-end record. -/
def monthStep (p : Params) (month : ℕ) (s : SimState) : SimState :=
  let salary := bumpedSalary p month s.salary
  let monthly_rate := interest_rate p.rpi salary / 12
  let total_monthly_pay := mandatory_pay salary + p.extra_payment
  let interest_accrued := s.balance * monthly_rate
  let balance := s.balance + interest_accrued - total_monthly_pay
  let total_paid := s.total_paid + total_monthly_pay
  let data :=
    if month % 12 = 0 ∨ month = term_years * 12 - 1 then
      s.data ++ [⟨month / 12, max 0 balance, total_paid, salary, interest_accrued * 12⟩]
    else s.data
  ⟨data, total_paid, balance, salary⟩

/-- The loop of `run_simulation` starting at a given month with the given
remaining month budget; mirrors `if balance <= 0: balance = 0; break`.
Returns the final state and the month index one past the last simulated
month. -/
def loop (p : Params) : ℕ → ℕ → SimState → SimState × ℕ
  | month, 0, s => (s, month)
  | month, fuel + 1, s =>
    let s' := monthStep p month s
    if s'.balance ≤ 0 then ({ s' with balance := 0 }, month + 1)
    else loop p (month + 1) fuel s'

/-- The state at the top of `run_simulation`: empty `data`, zero `total_paid`,
and the widget-supplied balance and salary. -/
def initState (p : Params) : SimState :=
  ⟨[], 0, p.current_balance, p.annual_salary⟩

/-- What `run_simulation` returns (`data`, `balance`, `total_paid`), plus the
month index one past the last simulated month, which the loop determines. -/
structure RunResult where
  data : List Snapshot
  final_balance : ℚ
  total_paid : ℚ
  months : ℕ
deriving DecidableEq

/-- `run_simulation()` from the source: run the monthly loop over the full
term and, if debt remains, append the final Year-30 point. -/
def run_simulation (p : Params) : RunResult :=
  let r := loop p 0 (term_years * 12) (initState p)
  if 0 < r.1.balance then
    ⟨r.1.data ++ [⟨30, r.1.balance, r.1.total_paid, r.1.salary, 0⟩],
      r.1.balance, r.1.total_paid, r.2⟩
  else ⟨r.1.data, r.1.balance, r.1.total_paid, r.2⟩

/-- The state after `n` iterations of the loop body, ignoring the break check:
the reference trajectory used to state when the break fires. -/
def stateAt (p : Params) : ℕ → SimState
  | 0 => initState p
  | n + 1 => monthStep p n (stateAt p n)

/-- Modelled from the spec: the `InvalidParameter` validity predicate of §7
(the source itself performs no validation; this predicate exists only to
state which inputs the spec calls invalid). -/
def validParams (p : Params) : Prop :=
  0 ≤ p.current_balance ∧ 0 ≤ p.annual_salary ∧
    0 ≤ p.rpi ∧ p.rpi ≤ 1 ∧ 0 ≤ p.extra_payment

instance : DecidablePred validParams := fun p => by
  unfold validParams; infer_instance

/-! ### Basic equations for one loop iteration -/

theorem monthStep_salary (p : Params) (m : ℕ) (s : SimState) :
    (monthStep p m s).salary = bumpedSalary p m s.salary := rfl

theorem monthStep_total_paid (p : Params) (m : ℕ) (s : SimState) :
    (monthStep p m s).total_paid = s.total_paid + monthPay p m s.salary := rfl

theorem monthStep_balance (p : Params) (m : ℕ) (s : SimState) :
    (monthStep p m s).balance
      = s.balance + s.balance * (interest_rate p.rpi (bumpedSalary p m s.salary) / 12)
        - monthPay p m s.salary := rfl

theorem monthStep_data (p : Params) (m : ℕ) (s : SimState) :
    (monthStep p m s).data
      = if m % 12 = 0 ∨ m = term_years * 12 - 1 then
          s.data ++ [⟨m / 12,
            max 0 (monthStep p m s).balance,
            (monthStep p m s).total_paid,
            bumpedSalary p m s.salary,
            s.balance * (interest_rate p.rpi (bumpedSalary p m s.salary) / 12) * 12⟩]
        else s.data := rfl

theorem monthStep_data_append (p : Params) (m : ℕ) (s : SimState) :
    ∃ t, (monthStep p m s).data = s.data ++ t := by
  rw [monthStep_data]
  split
  · exact ⟨_, rfl⟩
  · exact ⟨[], (List.append_nil _).symm⟩

theorem monthStep_data_mem_balance (p : Params) (m : ℕ) (s : SimState)
    (h : ∀ x ∈ s.data, 0 ≤ x.balance) :
    ∀ x ∈ (monthStep p m s).data, 0 ≤ x.balance := by
  rw [monthStep_data]
  split
  · intro x hx
    rcases List.mem_append.1 hx with hx | hx
    · exact h x hx
    · rcases List.mem_singleton.1 hx with rfl
      exact le_max_left 0 _
  · exact h

/-! ### Bounds for the interest-rate and repayment model -/

theorem interest_rate_lb (rpi salary : ℚ) : rpi ≤ interest_rate rpi salary := by
  unfold interest_rate lower_interest_threshold upper_interest_threshold
  split
  · exact le_refl _
  · split
    · linarith
    · have h1 : (28470 : ℚ) < salary := by linarith
      have h2 : salary < 51245 := by linarith
      have : (0:ℚ) ≤ (salary - 28470) / (51245 - 28470) * (3/100) := by
        apply mul_nonneg
        · apply div_nonneg <;> linarith
        · norm_num
      linarith

theorem interest_rate_ub (rpi salary : ℚ) : interest_rate rpi salary ≤ rpi + 3/100 := by
  unfold interest_rate lower_interest_threshold upper_interest_threshold
  split
  · linarith
  · split
    · exact le_refl _
    · have h1 : (28470 : ℚ) < salary := by linarith
      have h2 : salary < 51245 := by linarith
      have hscale : (salary - 28470) / (51245 - 28470) ≤ 1 := by
        rw [div_le_one (by norm_num)]
        linarith
      have : (salary - 28470) / (51245 - 28470) * (3/100) ≤ 1 * (3/100) := by
        apply mul_le_mul_of_nonneg_right hscale
        norm_num
      linarith

theorem mandatory_pay_nonneg (salary : ℚ) : 0 ≤ mandatory_pay salary := by
  unfold mandatory_pay
  split
  · have : repayment_threshold / 12 < salary / 12 := by assumption
    nlinarith
  · exact le_refl _

theorem monthPay_nonneg (p : Params) (m : ℕ) (salary : ℚ)
    (h : 0 ≤ p.extra_payment) : 0 ≤ monthPay p m salary := by
  unfold monthPay
  have := mandatory_pay_nonneg (bumpedSalary p m salary)
  linarith

/-! ### Unfolding and structural lemmas for the loop -/

theorem loop_zero (p : Params) (m : ℕ) (s : SimState) :
    loop p m 0 s = (s, m) := rfl

theorem loop_succ_break (p : Params) (m fuel f : ℕ) (s : SimState)
    (hf : fuel = f + 1) (h : (monthStep p m s).balance ≤ 0) :
    loop p m fuel s = ({ monthStep p m s with balance := 0 }, m + 1) := by
  subst hf
  rw [loop]
  simp only [h, if_pos]

theorem loop_succ_cont (p : Params) (m fuel f : ℕ) (s : SimState)
    (hf : fuel = f + 1) (h : 0 < (monthStep p m s).balance) :
    loop p m fuel s = loop p (m + 1) f (monthStep p m s) := by
  subst hf
  rw [loop]
  simp only [not_le.2 h, if_neg, not_false_iff]

theorem le_loop_months (p : Params) (m fuel : ℕ) (s : SimState) :
    m ≤ (loop p m fuel s).2 := by
  induction fuel generalizing m s with
  | zero => exact le_refl m
  | succ f ih =>
    by_cases h : (monthStep p m s).balance ≤ 0
    · rw [loop_succ_break p m (f+1) f s rfl h]
      exact Nat.le_succ m
    · rw [loop_succ_cont p m (f+1) f s rfl (not_le.1 h)]
      exact le_trans (Nat.le_succ m) (ih (m+1) _)

theorem succ_le_loop_months (p : Params) (m fuel f : ℕ) (s : SimState)
    (hf : fuel = f + 1) : m + 1 ≤ (loop p m fuel s).2 := by
  subst hf
  by_cases h : (monthStep p m s).balance ≤ 0
  · rw [loop_succ_break p m (f+1) f s rfl h]
  · rw [loop_succ_cont p m (f+1) f s rfl (not_le.1 h)]
    exact le_loop_months p (m+1) f _

theorem loop_months_le (p : Params) (m fuel : ℕ) (s : SimState) :
    (loop p m fuel s).2 ≤ m + fuel := by
  induction fuel generalizing m s with
  | zero => exact le_refl m
  | succ f ih =>
    by_cases h : (monthStep p m s).balance ≤ 0
    · rw [loop_succ_break p m (f+1) f s rfl h]
      exact Nat.add_le_add_left (Nat.le_add_left 1 f) m
    · rw [loop_succ_cont p m (f+1) f s rfl (not_le.1 h)]
      calc (loop p (m+1) f (monthStep p m s)).2 ≤ (m+1) + f := ih (m+1) _
        _ = m + (f+1) := by omega

theorem loop_balance_dichotomy (p : Params) (m fuel f : ℕ) (s : SimState)
    (hf : fuel = f + 1) :
    (loop p m fuel s).1.balance = 0
      ∨ ((loop p m fuel s).2 = m + fuel ∧ 0 < (loop p m fuel s).1.balance) := by
  subst hf
  induction f generalizing m s with
  | zero =>
    by_cases h : (monthStep p m s).balance ≤ 0
    · rw [loop_succ_break p m 1 0 s rfl h]
      exact Or.inl rfl
    · rw [loop_succ_cont p m 1 0 s rfl (not_le.1 h)]
      exact Or.inr ⟨rfl, not_le.1 h⟩
  | succ f ih =>
    by_cases h : (monthStep p m s).balance ≤ 0
    · rw [loop_succ_break p m (f+1+1) (f+1) s rfl h]
      exact Or.inl rfl
    · rw [loop_succ_cont p m (f+1+1) (f+1) s rfl (not_le.1 h)]
      rcases ih (m+1) (monthStep p m s) with h0 | ⟨hm, hb⟩
      · exact Or.inl h0
      · exact Or.inr ⟨by omega, hb⟩

theorem loop_data_append (p : Params) (m fuel : ℕ) (s : SimState) :
    ∃ t, (loop p m fuel s).1.data = s.data ++ t := by
  induction fuel generalizing m s with
  | zero => exact ⟨[], (List.append_nil _).symm⟩
  | succ f ih =>
    obtain ⟨t0, ht0⟩ := monthStep_data_append p m s
    by_cases h : (monthStep p m s).balance ≤ 0
    · rw [loop_succ_break p m (f+1) f s rfl h]
      exact ⟨t0, ht0⟩
    · rw [loop_succ_cont p m (f+1) f s rfl (not_le.1 h)]
      obtain ⟨t1, ht1⟩ := ih (m+1) (monthStep p m s)
      exact ⟨t0 ++ t1, by rw [ht1, ht0, List.append_assoc]⟩

theorem loop_balance_nonneg (p : Params) (m fuel : ℕ) (s : SimState)
    (h : 0 ≤ s.balance) : 0 ≤ (loop p m fuel s).1.balance := by
  induction fuel generalizing m s with
  | zero => exact h
  | succ f ih =>
    by_cases hb : (monthStep p m s).balance ≤ 0
    · rw [loop_succ_break p m (f+1) f s rfl hb]
    · rw [loop_succ_cont p m (f+1) f s rfl (not_le.1 hb)]
      exact ih (m+1) _ (le_of_lt (not_le.1 hb))

theorem stateAt_succ (p : Params) (m : ℕ) :
    stateAt p (m + 1) = monthStep p m (stateAt p m) := rfl

theorem loop_stateAt_run (p : Params) (f m : ℕ)
    (h : ∀ k, m ≤ k → k < m + f → 0 < (stateAt p (k + 1)).balance) :
    loop p m f (stateAt p m) = (stateAt p (m + f), m + f) := by
  induction f generalizing m with
  | zero => rfl
  | succ f ih =>
    have hpos : 0 < (monthStep p m (stateAt p m)).balance :=
      h m (le_refl m) (by omega)
    rw [loop_succ_cont p m (f+1) f _ rfl hpos, ← stateAt_succ]
    have hmf : m + 1 + f = m + (f + 1) := by omega
    rw [ih (m+1) (fun k hk1 hk2 => h k (by omega) (by omega)), hmf]

theorem loop_stateAt_break (p : Params) (f m j : ℕ)
    (hmj : m ≤ j) (hjf : j < m + f)
    (hrun : ∀ k, m ≤ k → k < j → 0 < (stateAt p (k + 1)).balance)
    (hbrk : (stateAt p (j + 1)).balance ≤ 0) :
    loop p m f (stateAt p m) = ({ stateAt p (j + 1) with balance := 0 }, j + 1) := by
  induction f generalizing m with
  | zero => omega
  | succ f ih =>
    by_cases hj : j = m
    · subst hj
      rw [loop_succ_break p j (f+1) f _ rfl hbrk]
      rfl
    · have hpos : 0 < (monthStep p m (stateAt p m)).balance :=
        hrun m (le_refl m) (by omega)
      rw [loop_succ_cont p m (f+1) f _ rfl hpos, ← stateAt_succ]
      exact ih (m+1) (by omega) (by omega) (fun k hk1 hk2 => hrun k (by omega) hk2)

theorem monthStep_record (p : Params) (m : ℕ) (s : SimState) (h12 : m % 12 = 0) :
    ∃ x ∈ (monthStep p m s).data, x.year = m / 12 := by
  rw [monthStep_data, if_pos (Or.inl h12)]
  exact ⟨_, List.mem_append.2 (Or.inr (List.mem_singleton.2 rfl)), rfl⟩

theorem loop_record (p : Params) (fuel m : ℕ) (s : SimState) :
    ∀ j, m ≤ j → j < (loop p m fuel s).2 → j % 12 = 0 →
      ∃ x ∈ (loop p m fuel s).1.data, x.year = j / 12 := by
  induction fuel generalizing m s with
  | zero =>
    intro j h1 h2 _
    rw [loop_zero] at h2
    omega
  | succ f ih =>
    intro j h1 h2 h12
    by_cases h : (monthStep p m s).balance ≤ 0
    · rw [loop_succ_break p m (f+1) f s rfl h] at h2 ⊢
      have hj : j = m := by omega
      subst hj
      exact monthStep_record p j s h12
    · rw [loop_succ_cont p m (f+1) f s rfl (not_le.1 h)] at h2 ⊢
      by_cases hj : j = m
      · subst hj
        obtain ⟨x, hx, hy⟩ := monthStep_record p j s h12
        obtain ⟨t, ht⟩ := loop_data_append p (j+1) f (monthStep p j s)
        exact ⟨x, ht ▸ List.mem_append.2 (Or.inl hx), hy⟩
      · exact ih (m+1) (monthStep p m s) j (by omega) h2 h12

/-! ### Projections of `run_simulation` onto the loop result -/

theorem run_final_balance (p : Params) :
    (run_simulation p).final_balance
      = (loop p 0 (term_years * 12) (initState p)).1.balance := by
  simp only [run_simulation]
  split <;> rfl

theorem run_total_paid (p : Params) :
    (run_simulation p).total_paid
      = (loop p 0 (term_years * 12) (initState p)).1.total_paid := by
  simp only [run_simulation]
  split <;> rfl

theorem run_months (p : Params) :
    (run_simulation p).months = (loop p 0 (term_years * 12) (initState p)).2 := by
  simp only [run_simulation]
  split <;> rfl

theorem run_data (p : Params) :
    (run_simulation p).data
      = (if 0 < (loop p 0 (term_years * 12) (initState p)).1.balance then
          (loop p 0 (term_years * 12) (initState p)).1.data
            ++ [⟨30, (loop p 0 (term_years * 12) (initState p)).1.balance,
                  (loop p 0 (term_years * 12) (initState p)).1.total_paid,
                  (loop p 0 (term_years * 12) (initState p)).1.salary, 0⟩]
        else (loop p 0 (term_years * 12) (initState p)).1.data) := by
  simp only [run_simulation]
  split <;> rfl

/-! ### Invariants of the recorded data -/

theorem loop_data_balance_nonneg (p : Params) (fuel m : ℕ) (s : SimState)
    (h : ∀ x ∈ s.data, 0 ≤ x.balance) :
    ∀ x ∈ (loop p m fuel s).1.data, 0 ≤ x.balance := by
  induction fuel generalizing m s with
  | zero => exact h
  | succ f ih =>
    by_cases hb : (monthStep p m s).balance ≤ 0
    · rw [loop_succ_break p m (f+1) f s rfl hb]
      exact monthStep_data_mem_balance p m s h
    · rw [loop_succ_cont p m (f+1) f s rfl (not_le.1 hb)]
      exact ih (m+1) _ (monthStep_data_mem_balance p m s h)

theorem monthStep_paid_chain (p : Params) (m : ℕ) (s : SimState)
    (hpay : 0 ≤ p.extra_payment)
    (hchain : List.Chain' (fun a b => a.paid ≤ b.paid) s.data)
    (hle : ∀ x ∈ s.data, x.paid ≤ s.total_paid) :
    List.Chain' (fun a b => a.paid ≤ b.paid) (monthStep p m s).data
      ∧ ∀ x ∈ (monthStep p m s).data, x.paid ≤ (monthStep p m s).total_paid := by
  have hmono : s.total_paid ≤ (monthStep p m s).total_paid := by
    rw [monthStep_total_paid]
    have := monthPay_nonneg p m s.salary hpay
    linarith
  rw [monthStep_data]
  split
  · constructor
    · rw [List.chain'_append]
      refine ⟨hchain, List.chain'_singleton _, ?_⟩
      intro x hx y hy
      simp only [List.head?_cons, Option.mem_def, Option.some.injEq] at hy
      subst hy
      exact le_trans (hle x (List.mem_of_getLast?_eq_some (Option.mem_def.1 hx))) hmono
    · intro x hx
      rcases List.mem_append.1 hx with hx | hx
      · exact le_trans (hle x hx) hmono
      · rcases List.mem_singleton.1 hx with rfl
        exact le_refl _
  · exact ⟨hchain, fun x hx => le_trans (hle x hx) hmono⟩

theorem loop_paid_chain (p : Params) (fuel m : ℕ) (s : SimState)
    (hpay : 0 ≤ p.extra_payment)
    (hchain : List.Chain' (fun a b => a.paid ≤ b.paid) s.data)
    (hle : ∀ x ∈ s.data, x.paid ≤ s.total_paid) :
    List.Chain' (fun a b => a.paid ≤ b.paid) (loop p m fuel s).1.data
      ∧ ∀ x ∈ (loop p m fuel s).1.data, x.paid ≤ (loop p m fuel s).1.total_paid := by
  induction fuel generalizing m s with
  | zero => exact ⟨hchain, hle⟩
  | succ f ih =>
    obtain ⟨hc', hl'⟩ := monthStep_paid_chain p m s hpay hchain hle
    by_cases hb : (monthStep p m s).balance ≤ 0
    · rw [loop_succ_break p m (f+1) f s rfl hb]
      exact ⟨hc', hl'⟩
    · rw [loop_succ_cont p m (f+1) f s rfl (not_le.1 hb)]
      exact ih (m+1) _ hc' hl'

/-! ### Monotonicity of the trajectory in the overpayment -/

theorem bumpedSalary_extra (p : Params) (e : ℚ) (m : ℕ) (x : ℚ) :
    bumpedSalary { p with extra_payment := e } m x = bumpedSalary p m x := rfl

theorem monthPay_extra (p : Params) (e : ℚ) (m : ℕ) (x : ℚ) :
    monthPay { p with extra_payment := e } m x
      = mandatory_pay (bumpedSalary p m x) + e := rfl

theorem rpi_extra (p : Params) (e : ℚ) :
    ({ p with extra_payment := e } : Params).rpi = p.rpi := rfl

theorem monthStep_balance_mono (p : Params) (e1 e2 : ℚ) (he : e1 ≤ e2)
    (hrpi : 0 ≤ p.rpi) (m : ℕ) (s1 s2 : SimState)
    (hsal : s1.salary = s2.salary) (hbal : s2.balance ≤ s1.balance) :
    (monthStep { p with extra_payment := e2 } m s2).balance
      ≤ (monthStep { p with extra_payment := e1 } m s1).balance := by
  simp only [monthStep_balance, monthPay_extra, bumpedSalary_extra, rpi_extra, hsal]
  have hr : (0:ℚ) ≤ interest_rate p.rpi (bumpedSalary p m s2.salary) :=
    le_trans hrpi (interest_rate_lb _ _)
  have hmul : s2.balance * (interest_rate p.rpi (bumpedSalary p m s2.salary) / 12)
      ≤ s1.balance * (interest_rate p.rpi (bumpedSalary p m s2.salary) / 12) := by
    apply mul_le_mul_of_nonneg_right hbal
    positivity
  linarith

theorem loop_mono (p : Params) (e1 e2 : ℚ) (he : e1 ≤ e2) (hrpi : 0 ≤ p.rpi)
    (fuel m : ℕ) (s1 s2 : SimState)
    (hsal : s1.salary = s2.salary) (hbal : s2.balance ≤ s1.balance) :
    (loop { p with extra_payment := e2 } m fuel s2).1.balance
        ≤ (loop { p with extra_payment := e1 } m fuel s1).1.balance
      ∧ (loop { p with extra_payment := e2 } m fuel s2).2
        ≤ (loop { p with extra_payment := e1 } m fuel s1).2 := by
  induction fuel generalizing m s1 s2 with
  | zero => exact ⟨hbal, le_refl m⟩
  | succ f ih =>
    have hbal' := monthStep_balance_mono p e1 e2 he hrpi m s1 s2 hsal hbal
    have hsal' : (monthStep { p with extra_payment := e1 } m s1).salary
        = (monthStep { p with extra_payment := e2 } m s2).salary := by
      simp only [monthStep_salary, bumpedSalary_extra, hsal]
    by_cases h2 : (monthStep { p with extra_payment := e2 } m s2).balance ≤ 0
    · rw [loop_succ_break _ m (f+1) f s2 rfl h2]
      by_cases h1 : (monthStep { p with extra_payment := e1 } m s1).balance ≤ 0
      · rw [loop_succ_break _ m (f+1) f s1 rfl h1]
        exact ⟨le_refl 0, le_refl (m+1)⟩
      · rw [loop_succ_cont _ m (f+1) f s1 rfl (not_le.1 h1)]
        exact ⟨loop_balance_nonneg _ (m+1) f _ (le_of_lt (not_le.1 h1)),
          le_loop_months _ (m+1) f _⟩
    · have h2' := not_le.1 h2
      have h1' : 0 < (monthStep { p with extra_payment := e1 } m s1).balance :=
        lt_of_lt_of_le h2' hbal'
      rw [loop_succ_cont _ m (f+1) f s2 rfl h2', loop_succ_cont _ m (f+1) f s1 rfl h1']
      exact ih (m+1) _ _ hsal' hbal'

theorem loop_succ_data (p : Params) (m f : ℕ) (s : SimState) :
    ∃ t, (loop p m (f + 1) s).1.data = (monthStep p m s).data ++ t := by
  by_cases h : (monthStep p m s).balance ≤ 0
  · rw [loop_succ_break p m (f+1) f s rfl h]
    exact ⟨[], (List.append_nil _).symm⟩
  · rw [loop_succ_cont p m (f+1) f s rfl (not_le.1 h)]
    exact loop_data_append p (m+1) f _

theorem loop_succ_head (p : Params) (m f : ℕ) (s : SimState)
    (hs : s.data = []) (h12 : m % 12 = 0) :
    ∃ x, ((loop p m (f + 1) s).1.data).head? = some x ∧ x.year = m / 12 := by
  obtain ⟨t, ht⟩ := loop_succ_data p m f s
  rw [ht, monthStep_data, if_pos (Or.inl h12), hs, List.nil_append]
  exact ⟨_, rfl, rfl⟩

/-! ### Concrete parameter sets used for witnesses and counterexamples -/

/-- Balance 100, zero salary, zero inflation, overpayment 60: clears during
month 1, which is neither a 12-month boundary nor the last term month. -/
def pEx1 : Params := ⟨100, 0, "X", 0, 0, 60⟩

/-- Zero starting balance with the default salary 30000 and no overpayment. -/
def pEx2 : Params := ⟨0, 30000, "X", 0, 0, 0⟩

/-- Negative starting balance: invalid per the spec's parameter invariants. -/
def pEx3 : Params := ⟨-1000, 0, "X", 0, 0, 0⟩

/-- Balance 100, zero salary, zero inflation, no payments at all: the balance
stays at 100 for the whole term, so the run exhausts all 360 months. -/
def pEx4 : Params := ⟨100, 0, "X", 0, 0, 0⟩

/-- Base parameter set for the overpayment-monotonicity witness. -/
def pBase : Params := ⟨100, 0, "X", 0, 0, 0⟩

/-- Start state with balance 10 used by the clamp-and-stop witness. -/
def sEx1 : SimState := ⟨[], 0, 10, 0⟩

/-! ### Claim C5 -/

/-- C5: the interest-rate function returns exactly `rpi` (the base rate) at the
lower interest threshold, exactly `rpi + 0.03` (base rate plus the hard-coded
spread) at the upper interest threshold, and for every salary the returned
rate lies in the closed interval `[rpi, rpi + 0.03]`. -/
theorem c5_rate_bounds :
    (∀ rpi : ℚ, interest_rate rpi lower_interest_threshold = rpi)
      ∧ (∀ rpi : ℚ, interest_rate rpi upper_interest_threshold = rpi + 3/100)
      ∧ ∀ rpi salary : ℚ,
          rpi ≤ interest_rate rpi salary ∧ interest_rate rpi salary ≤ rpi + 3/100 := by
  refine ⟨fun rpi => ?_, fun rpi => ?_, fun rpi salary => ⟨interest_rate_lb rpi salary, interest_rate_ub rpi salary⟩⟩
  · rw [interest_rate, if_pos (le_refl _)]
  · rw [interest_rate]
    rw [if_neg (by norm_num [lower_interest_threshold, upper_interest_threshold]),
      if_pos (le_refl _)]

/-- C5 witness: the boundary values and the interval bound evaluated at the
default inflation rate 0.035 and salary 40000. -/
theorem c5_witness :
    interest_rate (35/1000) lower_interest_threshold = 35/1000
      ∧ interest_rate (35/1000) upper_interest_threshold = 35/1000 + 3/100
      ∧ (35/1000 : ℚ) ≤ interest_rate (35/1000) 40000
      ∧ interest_rate (35/1000) 40000 ≤ 35/1000 + 3/100 :=
  ⟨c5_rate_bounds.1 (35/1000), c5_rate_bounds.2.1 (35/1000),
    (c5_rate_bounds.2.2 (35/1000) 40000).1, (c5_rate_bounds.2.2 (35/1000) 40000).2⟩

/-! ### Claim C6 -/

/-- C6: every snapshot in the output sequence has a non-negative balance: the
loop records `max 0 balance` and the appended Year-30 record is only written
when the remaining balance is positive. -/
theorem c6_snapshots_nonneg (p : Params) :
    ∀ x ∈ (run_simulation p).data, 0 ≤ x.balance := by
  rw [run_data]
  have hloop : ∀ x ∈ (loop p 0 (term_years * 12) (initState p)).1.data, 0 ≤ x.balance :=
    loop_data_balance_nonneg p (term_years * 12) 0 (initState p)
      (fun x hx => absurd hx (List.not_mem_nil x))
  split
  · intro x hx
    rcases List.mem_append.1 hx with hx | hx
    · exact hloop x hx
    · rcases List.mem_singleton.1 hx with rfl
      exact le_of_lt (by assumption)
  · exact hloop

/-! ### Claim C10 -/

/-- C10: a career-type label that is not exactly "Custom Flat Rate" and does
not contain "Steady", "Fast Track" or "Late" as a substring silently falls
through to the default growth rate 0.025, for every year index. -/
theorem c10_growth_default (ty : String) (custom : ℚ) (year : ℕ)
    (h1 : ty ≠ "Custom Flat Rate")
    (h2 : containsSub "Steady".toList ty.toList = false)
    (h3 : containsSub "Fast Track".toList ty.toList = false)
    (h4 : containsSub "Late".toList ty.toList = false) :
    get_growth_rate year ty custom = 25/1000 := by
  rw [get_growth_rate, if_neg h1]
  rw [h2, h3, h4]
  simp

/-- C10 witness: the label "Artist" triggers the silent default for year 7 and
custom rate 0.5. -/
theorem c10_witness :
    ("Artist" ≠ "Custom Flat Rate"
        ∧ containsSub "Steady".toList "Artist".toList = false
        ∧ containsSub "Fast Track".toList "Artist".toList = false
        ∧ containsSub "Late".toList "Artist".toList = false)
      ∧ get_growth_rate 7 "Artist" (1/2) = 25/1000 :=
  ⟨⟨by decide, by decide, by decide, by decide⟩,
    c10_growth_default "Artist" (1/2) 7 (by decide) (by decide) (by decide) (by decide)⟩

/-! ### Concrete evaluations of short runs -/

theorem step0_pEx1 : monthStep pEx1 0 (initState pEx1) = ⟨[⟨0, 40, 60, 0, 0⟩], 60, 40, 0⟩ := by
  norm_num [monthStep, initState, pEx1, bumpedSalary, interest_rate, mandatory_pay,
    lower_interest_threshold, repayment_threshold, upper_interest_threshold, term_years,
    Snapshot.mk.injEq, SimState.mk.injEq]

theorem step1_pEx1 : monthStep pEx1 1 (⟨[⟨0, 40, 60, 0, 0⟩], 60, 40, 0⟩ : SimState)
    = ⟨[⟨0, 40, 60, 0, 0⟩], 120, -20, 0⟩ := by
  norm_num [monthStep, bumpedSalary, interest_rate, mandatory_pay, pEx1,
    lower_interest_threshold, repayment_threshold, upper_interest_threshold, term_years,
    Snapshot.mk.injEq, SimState.mk.injEq]

theorem run_pEx1_eq : run_simulation pEx1 = ⟨[⟨0, 40, 60, 0, 0⟩], 0, 120, 2⟩ := by
  have h1 : loop pEx1 0 360 (initState pEx1)
      = loop pEx1 1 359 ⟨[⟨0, 40, 60, 0, 0⟩], 60, 40, 0⟩ := by
    rw [loop_succ_cont pEx1 0 360 359 _ rfl (by rw [step0_pEx1]; norm_num), step0_pEx1]
  have h2 : loop pEx1 1 359 (⟨[⟨0, 40, 60, 0, 0⟩], 60, 40, 0⟩ : SimState)
      = (⟨[⟨0, 40, 60, 0, 0⟩], 120, 0, 0⟩, 2) := by
    rw [loop_succ_break pEx1 1 359 358 _ rfl (by rw [step1_pEx1]; norm_num), step1_pEx1]
  simp only [run_simulation]
  have h360 : term_years * 12 = 360 := rfl
  rw [h360, h1, h2]
  norm_num

theorem stateAt_pEx1_two : (stateAt pEx1 2).balance = -20 := by
  have h0 : stateAt pEx1 0 = initState pEx1 := rfl
  have h1 : stateAt pEx1 1 = monthStep pEx1 0 (stateAt pEx1 0) := rfl
  have h2 : stateAt pEx1 2 = monthStep pEx1 1 (stateAt pEx1 1) := rfl
  rw [h2, h1, h0, step0_pEx1, step1_pEx1]

theorem step0_pEx2 : monthStep pEx2 0 (initState pEx2)
    = ⟨[⟨0, 0, 1623/80, 30000, 0⟩], 1623/80, -(1623/80), 30000⟩ := by
  norm_num [monthStep, initState, pEx2, bumpedSalary, interest_rate, mandatory_pay,
    lower_interest_threshold, repayment_threshold, upper_interest_threshold, term_years,
    Snapshot.mk.injEq, SimState.mk.injEq]

theorem run_pEx2_eq : run_simulation pEx2 = ⟨[⟨0, 0, 1623/80, 30000, 0⟩], 0, 1623/80, 1⟩ := by
  have h1 : loop pEx2 0 360 (initState pEx2)
      = (⟨[⟨0, 0, 1623/80, 30000, 0⟩], 1623/80, 0, 30000⟩, 1) := by
    rw [loop_succ_break pEx2 0 360 359 _ rfl (by rw [step0_pEx2]; norm_num), step0_pEx2]
  simp only [run_simulation]
  have h360 : term_years * 12 = 360 := rfl
  rw [h360, h1]
  norm_num

theorem step0_pEx3 : monthStep pEx3 0 (initState pEx3) = ⟨[⟨0, 0, 0, 0, 0⟩], 0, -1000, 0⟩ := by
  norm_num [monthStep, initState, pEx3, bumpedSalary, interest_rate, mandatory_pay,
    lower_interest_threshold, repayment_threshold, upper_interest_threshold, term_years,
    Snapshot.mk.injEq, SimState.mk.injEq]

theorem run_pEx3_eq : run_simulation pEx3 = ⟨[⟨0, 0, 0, 0, 0⟩], 0, 0, 1⟩ := by
  have h1 : loop pEx3 0 360 (initState pEx3) = (⟨[⟨0, 0, 0, 0, 0⟩], 0, 0, 0⟩, 1) := by
    rw [loop_succ_break pEx3 0 360 359 _ rfl (by rw [step0_pEx3]; norm_num), step0_pEx3]
  simp only [run_simulation]
  have h360 : term_years * 12 = 360 := rfl
  rw [h360, h1]
  norm_num

/-- C6 witness: the single snapshot of the `pEx1` run has balance 40 ≥ 0. -/
theorem c6_witness :
    (⟨0, 40, 60, 0, 0⟩ : Snapshot) ∈ (run_simulation pEx1).data
      ∧ (0:ℚ) ≤ (⟨0, 40, 60, 0, 0⟩ : Snapshot).balance :=
  ⟨by rw [run_pEx1_eq]; exact List.mem_singleton.2 rfl,
    c6_snapshots_nonneg pEx1 ⟨0, 40, 60, 0, 0⟩
      (by rw [run_pEx1_eq]; exact List.mem_singleton.2 rfl)⟩

/-! ### Claim C1 -/

/-- C1 (amended): in the month the balance reaches or crosses zero, the loop
clamps the balance to 0 and terminates immediately with no further months
simulated, but the full month payment — including any overshoot beyond what
was required to reach zero — has already been added to `total_paid`; no
refund of the overshoot takes place. -/
theorem c1_clamp_no_refund (p : Params) (m fuel f : ℕ) (s : SimState)
    (hf : fuel = f + 1) (h : (monthStep p m s).balance ≤ 0) :
    loop p m fuel s = ({ monthStep p m s with balance := 0 }, m + 1)
      ∧ (monthStep p m s).total_paid = s.total_paid + monthPay p m s.salary :=
  ⟨loop_succ_break p m fuel f s hf h, monthStep_total_paid p m s⟩

/-- C1 counterexample: starting at balance 100 with zero interest and a flat
payment of 60 per month, the run clears in month 1 with a pre-clamp balance
of −20 (overshoot 20), and `total_paid` is the full 120 paid — not the
overshoot-reduced 100 = 120 + (−20) that the claim prescribes. -/
theorem c1_counterexample :
    (run_simulation pEx1).final_balance = 0
      ∧ (run_simulation pEx1).months = 2
      ∧ (stateAt pEx1 2).balance = -20
      ∧ (run_simulation pEx1).total_paid = 120
      ∧ (run_simulation pEx1).total_paid ≠ 120 + (stateAt pEx1 2).balance := by
  rw [run_pEx1_eq, stateAt_pEx1_two]
  norm_num

/-- C1 witness: a step from balance 10 with payment 60 has post-payment
balance −50 ≤ 0, so the loop clamps and stops after one month with the full
payment counted. -/
theorem c1_witness :
    (monthStep pEx1 0 sEx1).balance ≤ 0
      ∧ (loop pEx1 0 360 sEx1 = ({ monthStep pEx1 0 sEx1 with balance := 0 }, 0 + 1)
        ∧ (monthStep pEx1 0 sEx1).total_paid = sEx1.total_paid + monthPay pEx1 0 sEx1.salary) := by
  have h : (monthStep pEx1 0 sEx1).balance ≤ 0 := by
    norm_num [monthStep, sEx1, pEx1, bumpedSalary, interest_rate, mandatory_pay,
      lower_interest_threshold, repayment_threshold, upper_interest_threshold]
  exact ⟨h, c1_clamp_no_refund pEx1 0 360 359 sEx1 rfl h⟩

/-! ### Claim C3 -/

theorem initState_balance (p : Params) : (initState p).balance = p.current_balance := rfl

theorem initState_salary (p : Params) : (initState p).salary = p.annual_salary := rfl

theorem initState_total_paid (p : Params) : (initState p).total_paid = 0 := rfl

theorem bumpedSalary_zero (p : Params) (x : ℚ) : bumpedSalary p 0 x = x := by
  simp [bumpedSalary]

/-- C3 (amended): with `initial_balance = 0` the simulation still executes
month 0, so it stops after exactly one month (clearing at year 0) with
`total_paid` equal to the first month's total payment; that payment — and
hence `total_paid` — is 0 only when the salary is at most the repayment
threshold and the overpayment is 0. -/
theorem c3_zero_balance (p : Params) (hb : p.current_balance = 0)
    (he : 0 ≤ p.extra_payment) :
    (run_simulation p).months = 1
      ∧ (run_simulation p).final_balance = 0
      ∧ (run_simulation p).total_paid = monthPay p 0 p.annual_salary
      ∧ (p.annual_salary ≤ repayment_threshold → p.extra_payment = 0 →
          (run_simulation p).total_paid = 0) := by
  have hbal : (monthStep p 0 (initState p)).balance = -(monthPay p 0 p.annual_salary) := by
    rw [monthStep_balance]
    simp only [initState_balance, initState_salary, hb]
    ring
  have hle : (monthStep p 0 (initState p)).balance ≤ 0 := by
    rw [hbal]
    have := monthPay_nonneg p 0 p.annual_salary he
    linarith
  have hloop := loop_succ_break p 0 (term_years * 12) (term_years * 12 - 1) (initState p) rfl hle
  have htot : (run_simulation p).total_paid = monthPay p 0 p.annual_salary := by
    rw [run_total_paid, hloop]
    show (monthStep p 0 (initState p)).total_paid = _
    rw [monthStep_total_paid, initState_total_paid, initState_salary, zero_add]
  refine ⟨?_, ?_, htot, ?_⟩
  · rw [run_months, hloop]
  · rw [run_final_balance, hloop]
  · intro hsal hex
    rw [htot]
    unfold monthPay
    rw [bumpedSalary_zero, hex, add_zero]
    unfold mandatory_pay
    rw [if_neg]
    intro hlt
    rw [repayment_threshold] at hsal hlt
    linarith

/-- C3 counterexample: with a zero starting balance but the default salary
30000, the run clears at year 0 yet `total_paid` is the mandatory month-0
payment 1623/80 ≈ £20.29, not 0 as the claim states. -/
theorem c3_counterexample :
    validParams pEx2 ∧ pEx2.current_balance = 0
      ∧ (run_simulation pEx2).total_paid = 1623/80
      ∧ (run_simulation pEx2).total_paid ≠ 0 := by
  rw [run_pEx2_eq]
  refine ⟨by norm_num [validParams, pEx2], rfl, rfl, by norm_num⟩

/-- C3 witness: the amended statement applied to the zero-balance,
salary-30000 parameter set. -/
theorem c3_witness :
    pEx2.current_balance = 0 ∧ (0:ℚ) ≤ pEx2.extra_payment
      ∧ ((run_simulation pEx2).months = 1
        ∧ (run_simulation pEx2).final_balance = 0
        ∧ (run_simulation pEx2).total_paid = monthPay pEx2 0 pEx2.annual_salary
        ∧ (pEx2.annual_salary ≤ repayment_threshold → pEx2.extra_payment = 0 →
            (run_simulation pEx2).total_paid = 0)) :=
  ⟨rfl, by norm_num [pEx2], c3_zero_balance pEx2 rfl (by norm_num [pEx2])⟩

/-! ### Claim C9 -/

/-- C9 (amended): the simulator performs no parameter validation at all: every
parameter set, valid or not, is simulated as-is and yields a complete result
(a nonempty snapshot sequence and at least one simulated month); no error is
ever reported. -/
theorem c9_no_validation (p : Params) :
    (run_simulation p).data ≠ [] ∧ 1 ≤ (run_simulation p).months := by
  constructor
  · rw [run_data]
    have h360 : term_years * 12 = 359 + 1 := rfl
    rw [h360]
    obtain ⟨x, hx, _⟩ := loop_succ_head p 0 359 (initState p) rfl rfl
    split
    · intro hc
      rcases List.append_eq_nil.1 hc with ⟨h1, _⟩
      rw [h1] at hx
      simp at hx
    · intro hc
      rw [hc] at hx
      simp at hx
  · rw [run_months]
    have := succ_le_loop_months p 0 (term_years * 12) (term_years * 12 - 1) (initState p) rfl
    omega

/-- C9 counterexample: the negative-balance parameter set is invalid per the
spec, yet the simulator silently produces a complete normal result instead of
reporting an error. -/
theorem c9_counterexample :
    ¬ validParams pEx3 ∧ run_simulation pEx3 = ⟨[⟨0, 0, 0, 0, 0⟩], 0, 0, 1⟩ :=
  ⟨by norm_num [validParams, pEx3], run_pEx3_eq⟩

/-- C9 witness: the amended statement applied to the invalid negative-balance
input. -/
theorem c9_witness :
    (run_simulation pEx3).data ≠ [] ∧ 1 ≤ (run_simulation pEx3).months :=
  c9_no_validation pEx3

/-! ### Claim C7 -/

/-- C7: with a non-negative salary and overpayment, `total_paid` never
decreases from one month to the next, and consequently the `Paid` column of
the output snapshot sequence is non-decreasing. -/
theorem c7_paid_monotone (p : Params) (hsal : 0 ≤ p.annual_salary)
    (hextra : 0 ≤ p.extra_payment) :
    (∀ (m : ℕ) (s : SimState), s.total_paid ≤ (monthStep p m s).total_paid)
      ∧ List.Chain' (fun a b => a.paid ≤ b.paid) (run_simulation p).data := by
  have hstep : ∀ (m : ℕ) (s : SimState), s.total_paid ≤ (monthStep p m s).total_paid := by
    intro m s
    rw [monthStep_total_paid]
    have := monthPay_nonneg p m s.salary hextra
    linarith
  refine ⟨hstep, ?_⟩
  obtain ⟨hchain, hle⟩ := loop_paid_chain p (term_years * 12) 0 (initState p) hextra
    List.chain'_nil (fun x hx => absurd hx (List.not_mem_nil x))
  rw [run_data]
  split
  · rw [List.chain'_append]
    refine ⟨hchain, List.chain'_singleton _, ?_⟩
    intro x hx y hy
    simp only [List.head?_cons, Option.mem_def, Option.some.injEq] at hy
    subst hy
    exact hle x (List.mem_of_getLast?_eq_some (Option.mem_def.1 hx))
  · exact hchain

/-- C7 witness: the monotone-paid statement applied to the clearing run
`pEx1` (salary 0, overpayment 60). -/
theorem c7_witness :
    (0:ℚ) ≤ pEx1.annual_salary ∧ (0:ℚ) ≤ pEx1.extra_payment
      ∧ ((∀ (m : ℕ) (s : SimState), s.total_paid ≤ (monthStep pEx1 m s).total_paid)
        ∧ List.Chain' (fun a b => a.paid ≤ b.paid) (run_simulation pEx1).data) :=
  ⟨by norm_num [pEx1], by norm_num [pEx1],
    c7_paid_monotone pEx1 (by norm_num [pEx1]) (by norm_num [pEx1])⟩

/-! ### Claim C8 -/

theorem stateAt_zero (p : Params) : stateAt p 0 = initState p := rfl

/-- C8: every run terminates after at least 1 and at most `term_months = 360`
simulated months, in exactly one of two terminal states: Cleared — the
returned balance is 0, the month the loop stopped at is the first month
whose post-payment balance was ≤ 0 — or TermExhausted — the returned balance
is positive, all 360 months were simulated, and no month's post-payment
balance ever reached 0. -/
theorem c8_two_terminal_states (p : Params) :
    (run_simulation p).months ≤ term_years * 12
      ∧ 1 ≤ (run_simulation p).months
      ∧ (((run_simulation p).final_balance = 0
            ∧ (stateAt p (run_simulation p).months).balance ≤ 0
            ∧ ∀ k, k + 1 < (run_simulation p).months → 0 < (stateAt p (k + 1)).balance)
        ∨ (0 < (run_simulation p).final_balance
            ∧ (run_simulation p).months = term_years * 12
            ∧ ∀ k, k < term_years * 12 → 0 < (stateAt p (k + 1)).balance)) := by
  have hub : (run_simulation p).months ≤ term_years * 12 := by
    rw [run_months]
    have := loop_months_le p 0 (term_years * 12) (initState p)
    omega
  have hlb : 1 ≤ (run_simulation p).months := by
    rw [run_months]
    have := succ_le_loop_months p 0 (term_years * 12) (term_years * 12 - 1) (initState p) rfl
    omega
  refine ⟨hub, hlb, ?_⟩
  by_cases hex : ∃ j, j < term_years * 12 ∧ (stateAt p (j + 1)).balance ≤ 0
  · left
    obtain ⟨hj0lt, hj0le⟩ := Nat.find_spec hex
    have hmin : ∀ k, k < Nat.find hex → 0 < (stateAt p (k + 1)).balance := by
      intro k hk
      have hnot := Nat.find_min hex hk
      push_neg at hnot
      exact hnot (by omega)
    have hloop := loop_stateAt_break p (term_years * 12) 0 (Nat.find hex) (Nat.zero_le _)
      (by omega) (fun k _ hk2 => hmin k hk2) hj0le
    rw [stateAt_zero] at hloop
    have hm : (run_simulation p).months = Nat.find hex + 1 := by rw [run_months, hloop]
    refine ⟨?_, ?_, ?_⟩
    · rw [run_final_balance, hloop]
    · rw [hm]
      exact hj0le
    · intro k hk
      rw [hm] at hk
      exact hmin k (by omega)
  · right
    push_neg at hex
    have hpos : ∀ k, k < term_years * 12 → 0 < (stateAt p (k + 1)).balance :=
      fun k hk => hex k hk
    have hloop := loop_stateAt_run p (term_years * 12) 0 (fun k _ hk2 => hpos k (by omega))
    rw [stateAt_zero] at hloop
    have hm : (run_simulation p).months = term_years * 12 := by
      rw [run_months, hloop]
      omega
    refine ⟨?_, hm, hpos⟩
    rw [run_final_balance, hloop]
    show 0 < (stateAt p (0 + term_years * 12)).balance
    have h' : 0 + term_years * 12 = (term_years * 12 - 1) + 1 := by norm_num [term_years]
    rw [h']
    exact hpos (term_years * 12 - 1) (by norm_num [term_years])

/-- C8 witness: the termination dichotomy evaluated on the clearing run
`pEx1`. -/
theorem c8_witness :
    (run_simulation pEx1).months ≤ term_years * 12
      ∧ 1 ≤ (run_simulation pEx1).months
      ∧ (((run_simulation pEx1).final_balance = 0
            ∧ (stateAt pEx1 (run_simulation pEx1).months).balance ≤ 0
            ∧ ∀ k, k + 1 < (run_simulation pEx1).months → 0 < (stateAt pEx1 (k + 1)).balance)
        ∨ (0 < (run_simulation pEx1).final_balance
            ∧ (run_simulation pEx1).months = term_years * 12
            ∧ ∀ k, k < term_years * 12 → 0 < (stateAt pEx1 (k + 1)).balance)) :=
  c8_two_terminal_states pEx1

/-! ### Claim C2 -/

/-- C2 (amended): the output starts with the year-0 snapshot recorded at
month 0; every year whose first month is simulated contributes a snapshot
with that year number; and when the run ends by term exhaustion the last
element is the appended year-30 record. On early clearance at a month that
is neither a 12th-month boundary nor the last term month, however, no
snapshot is recorded at the final simulated month. -/
theorem c2_snapshot_schedule (p : Params) :
    (∃ s0, (run_simulation p).data.head? = some s0 ∧ s0.year = 0)
      ∧ (∀ y, 12 * y < (run_simulation p).months →
          ∃ x ∈ (run_simulation p).data, x.year = y)
      ∧ (0 < (run_simulation p).final_balance →
          ∃ sl, (run_simulation p).data.getLast? = some sl ∧ sl.year = 30) := by
  refine ⟨?_, ?_, ?_⟩
  · rw [run_data]
    have h360 : term_years * 12 = 359 + 1 := rfl
    rw [h360]
    obtain ⟨x, hx, hyx⟩ := loop_succ_head p 0 359 (initState p) rfl rfl
    split
    · rw [List.head?_append, hx]
      exact ⟨x, rfl, hyx⟩
    · exact ⟨x, hx, hyx⟩
  · intro y hy
    rw [run_months] at hy
    have h12 : (12 * y) % 12 = 0 := by omega
    obtain ⟨x, hx, hyx⟩ :=
      loop_record p (term_years * 12) 0 (initState p) (12 * y) (Nat.zero_le _) hy h12
    have hdiv : 12 * y / 12 = y := by omega
    rw [run_data]
    refine ⟨x, ?_, by rw [hyx, hdiv]⟩
    split
    · exact List.mem_append.2 (Or.inl hx)
    · exact hx
  · rw [run_final_balance]
    intro hfb
    rw [run_data, if_pos hfb]
    exact ⟨_, List.getLast?_concat _, rfl⟩

/-- C2 counterexample: the `pEx1` run simulates two months (clearing in
month 1) but records only the month-0 snapshot; no element of the output
carries the final cumulative paid amount 120, so there is no record at the
final simulated month, and the last element is not the clearance point. -/
theorem c2_counterexample :
    (run_simulation pEx1).months = 2
      ∧ (run_simulation pEx1).data = [⟨0, 40, 60, 0, 0⟩]
      ∧ (run_simulation pEx1).total_paid = 120
      ∧ ∀ x ∈ (run_simulation pEx1).data, x.paid ≠ (run_simulation pEx1).total_paid := by
  rw [run_pEx1_eq]
  refine ⟨rfl, rfl, rfl, ?_⟩
  intro x hx
  rcases List.mem_singleton.1 hx with rfl
  norm_num

theorem bumpedSalary_salary_zero (p : Params) (m : ℕ) : bumpedSalary p m 0 = 0 := by
  unfold bumpedSalary
  split <;> simp

theorem pEx4_stateAt (k : ℕ) :
    (stateAt pEx4 k).balance = 100 ∧ (stateAt pEx4 k).salary = 0 := by
  induction k with
  | zero => exact ⟨rfl, rfl⟩
  | succ n ih =>
    obtain ⟨hb, hs⟩ := ih
    have h1 : bumpedSalary pEx4 n 0 = 0 := bumpedSalary_salary_zero pEx4 n
    constructor
    · rw [stateAt_succ, monthStep_balance, hb, hs, h1]
      have h2 : interest_rate pEx4.rpi 0 = 0 := by
        norm_num [interest_rate, lower_interest_threshold, pEx4]
      have h3 : monthPay pEx4 n 0 = 0 := by
        unfold monthPay
        rw [h1]
        norm_num [mandatory_pay, repayment_threshold, pEx4]
      rw [h2, h3]
      ring
    · rw [stateAt_succ, monthStep_salary, hs, h1]

theorem run_pEx4_eq :
    (run_simulation pEx4).months = 360 ∧ (run_simulation pEx4).final_balance = 100 := by
  have hrun := loop_stateAt_run pEx4 (term_years * 12) 0
    (fun k _ _ => by rw [(pEx4_stateAt (k + 1)).1]; norm_num)
  rw [stateAt_zero] at hrun
  constructor
  · rw [run_months, hrun]
    norm_num [term_years]
  · rw [run_final_balance, hrun]
    exact (pEx4_stateAt _).1

/-- C2 witness: the schedule statement applied to the term-exhausted run
`pEx4`, together with satisfiable instances of its inner hypotheses (year 1
is simulated, and the final balance is positive). -/
theorem c2_witness :
    ((∃ s0, (run_simulation pEx4).data.head? = some s0 ∧ s0.year = 0)
      ∧ (∀ y, 12 * y < (run_simulation pEx4).months →
          ∃ x ∈ (run_simulation pEx4).data, x.year = y)
      ∧ (0 < (run_simulation pEx4).final_balance →
          ∃ sl, (run_simulation pEx4).data.getLast? = some sl ∧ sl.year = 30))
      ∧ 12 * 1 < (run_simulation pEx4).months
      ∧ 0 < (run_simulation pEx4).final_balance := by
  refine ⟨c2_snapshot_schedule pEx4, ?_, ?_⟩
  · rw [run_pEx4_eq.1]
    norm_num
  · rw [run_pEx4_eq.2]
    norm_num

/-! ### Claim C4 -/

/-- C4: for two runs differing only in `extra_payment`, with a non-negative
inflation rate and overpayments `0 ≤ e1 ≤ e2`, the run with the larger
overpayment never ends with a larger final balance, never simulates more
months, and whenever the smaller-overpayment run clears, the larger one
clears too and in a year that is no later. -/
theorem c4_overpayment_mono (p : Params) (e1 e2 : ℚ)
    (hrpi : 0 ≤ p.rpi) (h1 : 0 ≤ e1) (h12 : e1 ≤ e2) :
    (run_simulation { p with extra_payment := e2 }).final_balance
        ≤ (run_simulation { p with extra_payment := e1 }).final_balance
      ∧ (run_simulation { p with extra_payment := e2 }).months
        ≤ (run_simulation { p with extra_payment := e1 }).months
      ∧ ((run_simulation { p with extra_payment := e1 }).final_balance = 0 →
          (run_simulation { p with extra_payment := e2 }).final_balance = 0
            ∧ ((run_simulation { p with extra_payment := e2 }).months - 1) / 12
              ≤ ((run_simulation { p with extra_payment := e1 }).months - 1) / 12) := by
  obtain ⟨hbal, hm⟩ := loop_mono p e1 e2 h12 hrpi (term_years * 12) 0
    (initState { p with extra_payment := e1 }) (initState { p with extra_payment := e2 })
    rfl (le_refl _)
  have hfb : (run_simulation { p with extra_payment := e2 }).final_balance
      ≤ (run_simulation { p with extra_payment := e1 }).final_balance := by
    rw [run_final_balance, run_final_balance]
    exact hbal
  have hmo : (run_simulation { p with extra_payment := e2 }).months
      ≤ (run_simulation { p with extra_payment := e1 }).months := by
    rw [run_months, run_months]
    exact hm
  refine ⟨hfb, hmo, fun h0 => ⟨?_, ?_⟩⟩
  · rcases loop_balance_dichotomy { p with extra_payment := e2 } 0 (term_years * 12)
      (term_years * 12 - 1) (initState { p with extra_payment := e2 }) rfl with hz | ⟨_, hpos⟩
    · rw [run_final_balance]
      exact hz
    · exfalso
      rw [run_final_balance] at h0 hfb
      rw [run_final_balance] at hfb
      rw [h0] at hfb
      linarith
  · exact Nat.div_le_div_right (Nat.sub_le_sub_right hmo 1)

/-- C4 witness: base parameters with balance 100, zero salary and zero
inflation, comparing overpayments 50 and 100. -/
theorem c4_witness :
    (0:ℚ) ≤ pBase.rpi ∧ (0:ℚ) ≤ 50 ∧ (50:ℚ) ≤ 100
      ∧ ((run_simulation { pBase with extra_payment := 100 }).final_balance
            ≤ (run_simulation { pBase with extra_payment := 50 }).final_balance
          ∧ (run_simulation { pBase with extra_payment := 100 }).months
            ≤ (run_simulation { pBase with extra_payment := 50 }).months
          ∧ ((run_simulation { pBase with extra_payment := 50 }).final_balance = 0 →
              (run_simulation { pBase with extra_payment := 100 }).final_balance = 0
                ∧ ((run_simulation { pBase with extra_payment := 100 }).months - 1) / 12
                  ≤ ((run_simulation { pBase with extra_payment := 50 }).months - 1) / 12)) :=
  ⟨by norm_num [pBase], by norm_num, by norm_num,
    c4_overpayment_mono pBase 50 100 (by norm_num [pBase]) (by norm_num) (by norm_num)⟩

end LoanCalc
